import Mathlib

/- Shallow embedding of the cmlreaders EEG extraction and rereferencing
   engine (src/cmlreaders/readers/eeg.py, src/cmlreaders/timeseries.py).

   Data is modelled as nested lists of integers shaped
   (epochs × channels × time); pandas DataFrames holding schemes are
   modelled as records of optional columns; Python exceptions are
   modelled with Except over an error enumeration. -/

deriving instance DecidableEq for Except

namespace CMLReaders

/-- Python exception classes that the embedded code can raise.
`schemeFormatError` is the error class named by the specification for
malformed schemes; it is listed so that statements about it can be made,
but the code under test never raises it. `broadcastError` stands for the
ValueError numpy raises when operand shapes cannot be broadcast. -/
inductive Err where
  | valueError
  | keyError
  | typeError
  | indexError
  | broadcastError
  | invalidWindowError
  | rereferencingNotPossibleError
  | schemeFormatError
  deriving DecidableEq

/-- Warning categories emitted through warnings.warn. -/
inductive Warn where
  | missingChannels
  deriving DecidableEq

/-- A rereferencing scheme DataFrame: each of the three contact fields is a
column that may be present or absent; when present it holds the column's
values row by row. The label column is always present in the data this
code consumes. -/
structure Scheme where
  contact_1 : Option (List Int)
  contact_2 : Option (List Int)
  contact : Option (List Int)
  label : List String
  deriving DecidableEq

/-- The two recognized scheme forms. -/
inductive SchemeType where
  | pairs
  | contacts
  deriving DecidableEq

/-- BaseEEGReader.scheme_type for a non-None scheme: "pairs" when both the
contact_1 and contact_2 columns are present, otherwise "contacts" when a
contact column is present, otherwise a KeyError is raised. -/
def schemeTypeSome (s : Scheme) : Except Err SchemeType :=
  if s.contact_1.isSome ∧ s.contact_2.isSome then .ok .pairs
  else if s.contact.isSome then .ok .contacts
  else .error .keyError

/-- BaseEEGReader.scheme_type: None when no scheme was given. -/
def scheme_type (scheme : Option Scheme) : Except Err (Option SchemeType) :=
  match scheme with
  | none => .ok none
  | some s => (schemeTypeSome s).map some

/-- An epoch: a start sample and an optional stop sample (None = to the end
of the recording). -/
abbrev Epoch := Int × Option Int

/-- np.union1d: the sorted union of two integer sequences. -/
def union1d (a b : List Int) : List Int :=
  ((a ++ b).dedup).insertionSort (· ≤ ·)

/-- pandas Series.unique: deduplication keeping first occurrences in order. -/
def pdUnique (l : List Int) : List Int := l.dedup

/-- State of a BaseEEGReader instance (the fields the EEG engine reads and
mutates: the requested epochs, the scheme, the cached unique contacts and
the rereferencing_possible flag). -/
structure Reader where
  epochs : List Epoch
  scheme : Option Scheme
  uniqueContacts : Option (List Int)
  rereferencingPossible : Bool
  deriving DecidableEq

/-- BaseEEGReader.__init__: computes _unique_contacts from the scheme (a
KeyError from scheme_type is swallowed, leaving None) and initializes
rereferencing_possible to True. -/
def readerInit (epochs : List Epoch) (scheme : Option Scheme) : Reader :=
  let u : Option (List Int) :=
    match scheme_type scheme with
    | .ok (some .contacts) => scheme.map fun s => pdUnique (s.contact.getD [])
    | .ok (some .pairs) =>
        scheme.map fun s => union1d (s.contact_1.getD []) (s.contact_2.getD [])
    | _ => none
  ⟨epochs, scheme, u, true⟩

/-- BaseEEGReader.include_contact: keep a contact number iff it occurs in
_unique_contacts, or always when no scheme constrained the contacts. -/
def include_contact (r : Reader) (c : Int) : Bool :=
  match r.uniqueContacts with
  | some u => decide (c ∈ u)
  | none => true

/-- Raw EEG data shaped (epochs × channels × time). -/
abbrev EEGData := List (List (List Int))

/-- The contact_to_index dict of BaseEEGReader.rereference: maps a contact
number to its row index in the data; built by insertion over
enumerate(contacts), so a duplicated contact keeps its last index. -/
def contactToIndex (contacts : List Int) (c : Int) : Option Nat :=
  (contacts.enum.reverse.find? (fun p => p.2 == c)).map (·.1)

/-- Elementwise subtraction of two equally long sample rows. -/
def rowSub (a b : List Int) : List Int := List.zipWith (· - ·) a b

/-- numpy subtraction of two stacks of rows shaped (m × time) and
(n × time): elementwise when m = n, broadcast when one of m, n is 1,
otherwise a shape mismatch error. -/
def broadcastSub (a b : List (List Int)) : Except Err (List (List Int)) :=
  if a.length = b.length then .ok (List.zipWith rowSub a b)
  else if a.length = 1 then .ok (b.map (fun rb => rowSub (a.headD []) rb))
  else if b.length = 1 then .ok (a.map (fun ra => rowSub ra (b.headD [])))
  else .error .broadcastError

/-- Result of a rereference call: derived data, output labels, and the
warnings emitted along the way. -/
abbrev RerefOut := EEGData × List String × List Warn

/-- The comprehension [f(c) for c in l] when f can raise: evaluates left to
right and propagates the first raised error. -/
def mapExcept {ε α β : Type} (f : α → Except ε β) : List α → Except ε (List β)
  | [] => .ok []
  | a :: rest =>
    match f a, mapExcept f rest with
    | .ok b, .ok bs => .ok (b :: bs)
    | .error e, _ => .error e
    | .ok _, .error e => .error e

/-- The comprehension [contact_to_index[c] for c in l]: None as soon as
some contact is absent from the dict (a raised KeyError). -/
def lookupAll (f : Int → Option Nat) : List Int → Option (List Nat)
  | [] => some []
  | c :: rest =>
    match f c, lookupAll f rest with
    | some i, some is => some (i :: is)
    | _, _ => none

/-- BaseEEGReader.rereference (eeg.py lines 172-217): builds the
contact-to-index map; in pair form filters the contact_1 and contact_2
columns independently through the map and subtracts the two row
selections per epoch, returning the full label column; in contact form
selects rows for every contact in the column (KeyError when one is
absent), returning the full label column. Indexing a row beyond the
channel axis is modelled with getD (the inputs this engine receives index
within bounds). -/
def rereference (r : Reader) (data : EEGData) (contacts : List Int) :
    Except Err RerefOut :=
  match r.scheme with
  | none => .error .typeError
  | some s =>
    match schemeTypeSome s with
    | .error e => .error e
    | .ok .pairs =>
        let c1 := (s.contact_1.getD []).filterMap (contactToIndex contacts)
        let c2 := (s.contact_2.getD []).filterMap (contactToIndex contacts)
        (mapExcept (fun ep =>
            broadcastSub (c1.map (fun i => ep.getD i []))
              (c2.map (fun j => ep.getD j []))) data).map
          (fun reref => (reref, s.label, []))
    | .ok .contacts =>
        match lookupAll (contactToIndex contacts) (s.contact.getD []) with
        | none => .error .keyError
        | some channels =>
            .ok (data.map (fun ep => channels.map (fun i => ep.getD i [])),
                 s.label, [])

/-- Resolves a scheme pair to a pair of data row indices when both of its
contacts are present in the contact-to-index map. -/
def pairIdx (f : Int → Option Nat) (p : Int × Int) : Option (Nat × Nat) :=
  match f p.1, f p.2 with
  | some i, some j => some (i, j)
  | _, _ => none

/-- C2 and C5 input: a pair-form scheme requesting pairs (1,2) and (3,4). -/
def pairScheme1234 : Scheme := ⟨some [1, 3], some [2, 4], none, ["A", "B"]⟩

/-- C2 and C5 input: a reader constructed over pairScheme1234. -/
def pairReader1234 : Reader := readerInit [((0 : Int), none)] (some pairScheme1234)

/-- Python slice l[a:b] for a non-negative start and an optional stop
(None = to the end of the sequence); the epochs this engine produces for
slicing have non-negative bounds. -/
def pySlice {α : Type} (l : List α) (e : Epoch) : List α :=
  match e.2 with
  | some b => (l.take b.toNat).drop e.1.toNat
  | none => l.drop e.1.toNat

/-- numpy boolean-mask indexing m[mask]: keeps the entries whose mask
position is True (mask and indexed axis have equal length in all uses). -/
def applyMask {α : Type} (mask : List Bool) (l : List α) : List α :=
  ((mask.zip l).filter (·.1)).map (·.2)

/-- RamulatorHDF5Reader.read duplicate elimination (eeg.py 309-313):
entry i is kept unless its pair, or its reversed pair, already occurred
among the strictly earlier entries of the bipolar_info table. -/
def ramKeepMask (pairs : List (Int × Int)) : List Bool :=
  pairs.enum.map (fun p =>
    !(decide (p.2 ∈ pairs.take p.1) ||
      decide ((p.2.2, p.2.1) ∈ pairs.take p.1)))

/-- Contents of a Ramulator HDF5 file as the reader consumes it: the
optional monopolar_possible flag (None when that dataset is absent), the
optional bipolar_info side table of (ch0_label, ch1_label) pairs, the
ports dataset, the orient attribute (True for b"row"), and the
timeseries dataset, whose outer rows are time samples when orientRow and
channels otherwise. -/
structure RamulatorFile where
  monopolarPossible : Option Bool
  bipolarInfo : Option (List (Int × Int))
  ports : List Int
  orientRow : Bool
  timeseries : List (List Int)
  deriving DecidableEq

/-- RamulatorHDF5Reader.read (eeg.py 288-327): updates
rereferencing_possible from the stored flag when present (the KeyError
when absent is swallowed), builds the duplicate keep-mask (all-True over
ports when there is no bipolar_info table), slices each requested epoch
according to the orientation applying the mask to the channel axis, and
returns the kept subset of ports as the contact identities. -/
def ram_read (r : Reader) (file : RamulatorFile) :
    Reader × EEGData × List Int :=
  let r2 : Reader :=
    { r with rereferencingPossible :=
        file.monopolarPossible.getD r.rereferencingPossible }
  let idxs : List Bool :=
    match file.bipolarInfo with
    | some bp => ramKeepMask bp
    | none => file.ports.map (fun _ => true)
  let data : EEGData :=
    if file.orientRow then
      r.epochs.map (fun e =>
        ((pySlice file.timeseries e).map (applyMask idxs)).transpose)
    else
      r.epochs.map (fun e =>
        (applyMask idxs file.timeseries).map (fun row => pySlice row e))
  (r2, data, applyMask idxs file.ports)

/-- The valid_mask of RamulatorHDF5Reader.rereference (eeg.py 350-353):
marks a scheme row when its contact_1 appears somewhere in the recorded
ch0 column and its contact_2 appears somewhere in the recorded ch1
column. -/
def ramValidMask (s : Scheme) (allNums : List (Int × Int)) : List Bool :=
  List.zipWith (fun a b =>
    decide (a ∈ allNums.map (·.1)) &&
    decide (b ∈ allNums.map (·.2))) (s.contact_1.getD []) (s.contact_2.getD [])

/-- len(self.scheme[valid_mask]): the number of marked scheme rows. -/
def ramValidCount (s : Scheme) (allNums : List (Int × Int)) : Nat :=
  ((ramValidMask s allNums).filter id).length

/-- RamulatorHDF5Reader.rereference (eeg.py 329-378): delegates to the
default engine when rereferencing is possible or the scheme is in contact
form (the scheme_type comparison is reached only when the flag is False
and can itself raise KeyError); otherwise marks the scheme rows whose
contact_1 appears somewhere in the recorded ch0 column and whose
contact_2 appears somewhere in the recorded ch1 column (a per-column
membership test), fails with RereferencingNotPossibleError when no row is
marked, warns with MissingChannelsWarning when some rows are unmarked,
and returns the channels of the recording whose pair matches a marked row
in either order, with the marked rows' labels. An empty bipolar_info
table makes the numpy column access fail with IndexError. -/
def ram_rereference (r : Reader) (file : RamulatorFile) (data : EEGData)
    (contacts : List Int) : Except Err RerefOut :=
  if r.rereferencingPossible then rereference r data contacts
  else
    match r.scheme with
    | none => .error .typeError
    | some s =>
      match schemeTypeSome s with
      | .error e => .error e
      | .ok .contacts => rereference r data contacts
      | .ok .pairs =>
        match file.bipolarInfo with
        | none => .error .keyError
        | some allNums =>
          if allNums.length = 0 then .error .indexError
          else
            let c1col := s.contact_1.getD []
            let validMask := ramValidMask s allNums
            if ramValidCount s allNums = 0 then
              .error .rereferencingNotPossibleError
            else
              let warns : List Warn :=
                if ramValidCount s allNums < c1col.length then
                  [.missingChannels]
                else []
              let schemeNums :=
                (applyMask validMask c1col).zip
                  (applyMask validMask (s.contact_2.getD []))
              let channelInds : List Bool := allNums.map (fun ch =>
                decide (ch ∈ schemeNums) || decide ((ch.2, ch.1) ∈ schemeNums))
              .ok (data.map (fun ep => applyMask channelInds ep),
                   applyMask validMask s.label, warns)

/-- C6 input: a scheme DataFrame carrying only a label column, hence
neither the pair-form columns nor the contact-form column. -/
def malformedScheme : Scheme := ⟨none, none, none, ["x"]⟩


/-- C1 input: a pair-form scheme requesting only the pair (1,4). -/
def scheme14 : Scheme := ⟨some [1], some [4], none, ["A"]⟩

/-- C1 input: a non-rerefable recording with bipolar pairs (1,2), (3,4). -/
def file1234 : RamulatorFile :=
  ⟨some false, some [(1, 2), (3, 4)], [1, 2], false, [[10], [20]]⟩

/-- C1 input: the reader state after reading file1234 with scheme14. -/
def reader14 : Reader :=
  (ram_read (readerInit [((0 : Int), none)] (some scheme14)) file1234).1

/-- C1 witness input: a scheme requesting pair (2,1), the reverse of the
recorded pair (1,2). -/
def scheme21 : Scheme := ⟨some [2], some [1], none, ["B"]⟩

/-- C1 witness input: a non-rerefable recording holding the single bipolar
pair (1,2). -/
def file12 : RamulatorFile := ⟨some false, some [(1, 2)], [1], false, [[5]]⟩

/-- C1 witness input: the reader state after reading file12 with scheme21. -/
def reader21 : Reader :=
  (ram_read (readerInit [((0 : Int), none)] (some scheme21)) file12).1

/-- C4 witness input: a recording listing bipolar pairs (1,2), (3,4),
(2,1), (3,4): the third and fourth entries duplicate earlier pairs, the
third in reversed contact order. -/
def dupFile : RamulatorFile :=
  ⟨some false, some [(1, 2), (3, 4), (2, 1), (3, 4)], [10, 20, 30, 40],
   false, [[1], [2], [3], [4]]⟩

/-- C5 input: a contact-form scheme requesting contacts 1 and 2. -/
def contactScheme12 : Scheme := ⟨none, none, some [1, 2], ["a", "b"]⟩

/-- C5 witness input: a pair scheme whose row (1,2) is recorded in
file1234 and whose row (5,6) is not. -/
def schemePart : Scheme := ⟨some [1, 5], some [2, 6], none, ["X", "Y"]⟩

/-- C5 witness input: the reader state after reading file1234 with
schemePart. -/
def readerPart : Reader :=
  (ram_read (readerInit [((0 : Int), none)] (some schemePart)) file1234).1

/-- Modelled from the spec: convert.events_to_epochs is code of this
repository that is not under src/ (only its callers and tests are).
Spec section 4.1: for each event row the per-row sample offset eegoffset
is shifted by round(rel_ms * sample_rate / 1000) for both window edges;
the call fails with InvalidWindowError when rel_start_ms > rel_stop_ms,
except that the sentinel rel_start=0, rel_stop=-1 bypasses the check and
produces the single whole-session epoch (0, null) regardless of the
event count. -/
def events_to_epochs (eegoffsets : List Int) (relStart relStop : Int)
    (sampleRate : ℚ) : Except Err (List Epoch) :=
  if relStart = 0 ∧ relStop = -1 then .ok [(0, none)]
  else if relStart > relStop then .error .invalidWindowError
  else .ok (eegoffsets.map (fun off =>
    (off + round (((relStart : ℚ) * sampleRate) / 1000),
     some (off + round (((relStop : ℚ) * sampleRate) / 1000)))))

/-- The epoch-determination step of EEGReader.as_timeseries (eeg.py
629-660) for one source file: the sanity check raises ValueError only
when rel_start and rel_stop each differ from its sentinel component and
the window is out of order; the sentinel window over a single-event batch
short-circuits to the whole-session epoch; every other request goes
through the epoch converter. nEventsTotal is the length of the full
event batch (the code tests len(events), not the per-file subset). -/
def computeEpochs (evOffsets : List Int) (nEventsTotal : Nat)
    (relStart relStop : Int) (sampleRate : ℚ) : Except Err (List Epoch) :=
  if relStart ≠ 0 ∧ relStop ≠ -1 ∧ relStart > relStop then
    .error .valueError
  else if relStart = 0 ∧ relStop = -1 ∧ nEventsTotal = 1 then
    .ok [(0, none)]
  else events_to_epochs evOffsets relStart relStop sampleRate

/-- A TimeSeries container (timeseries.py): data (epochs × channels ×
time), sample rate, per-epoch onset/offset metadata and channel labels.
The derived time array and the attrs bag play no part in the properties
proved below and are not modelled. -/
structure TS where
  data : EEGData
  samplerate : ℚ
  epochs : List (Int × Int)
  channels : List String
  deriving DecidableEq

/-- numpy shape[1] of a rectangular data block. -/
def shape1 (data : EEGData) : Nat := (data.headD []).length

/-- numpy shape[-1] of a rectangular data block. -/
def lastDim (data : EEGData) : Nat := ((data.headD []).headD []).length

/-- TimeSeries.__init__ (timeseries.py 32-60): when given, epochs must
match the first data dimension and channels the second (ValueError
otherwise); omitted arguments get synthesized defaults. The 2-D
promotion is not modelled: the assembler always passes 3-D blocks. -/
def TS.make (data : EEGData) (samplerate : ℚ)
    (epochs : Option (List (Int × Int))) (channels : Option (List String)) :
    Except Err TS :=
  let eps := epochs.getD (data.map (fun _ => ((-1 : Int), (-1 : Int))))
  let chs := channels.getD
    ((List.range (shape1 data)).map (fun i => "CH" ++ toString i))
  if epochs.isSome ∧ eps.length ≠ data.length then .error .valueError
  else if channels.isSome ∧ chs.length ≠ shape1 data then .error .valueError
  else .ok ⟨data, samplerate, eps, chs⟩

/-- TimeSeries.concatenate along the events dimension (timeseries.py
94-139): a uniform sample rate, per-epoch sample count and channel list
are required, then the data blocks and the per-epoch metadata are
stacked in input order and revalidated by the constructor. The dim
argument check and the time-dimension branch play no part in the claims;
indexing series[0] of an empty input raises IndexError. -/
def concatenateEvents (series : List TS) : Except Err TS :=
  match series with
  | [] => .error .indexError
  | s0 :: _ =>
    if ¬ series.all (fun s => decide (s.samplerate = s0.samplerate)) then
      .error .valueError
    else if ¬ series.all
        (fun s => decide (lastDim s.data = lastDim s0.data)) then
      .error .valueError
    else if ¬ series.all (fun s => decide (s.channels = s0.channels)) then
      .error .valueError
    else
      TS.make ((series.map (·.data)).flatten) s0.samplerate
        (some ((series.map (·.epochs)).flatten)) (some s0.channels)

/-- Internal consistency of a TimeSeries as its constructor guarantees:
epochs and channels match the data dimensions and the block is
rectangular. -/
abbrev TS.wf (s : TS) : Prop :=
  s.epochs.length = s.data.length ∧
  s.channels.length = shape1 s.data ∧
  ∀ ep ∈ s.data, ep.length = s.channels.length ∧
    ∀ row ∈ ep, row.length = lastDim s.data

/-- C7 witness input: two epochs of one channel and two samples. -/
def tsA : TS := ⟨[[[1, 2]], [[3, 4]]], 1000, [(0, 2), (2, 4)], ["c"]⟩

/-- C7 witness input: one epoch compatible with tsA. -/
def tsB : TS := ⟨[[[5, 6]]], 1000, [(4, 6)], ["c"]⟩

/-- SplitEEGReader.read (eeg.py 247-278) past file discovery: the
discovered sibling files are presented as (numeric suffix, file samples)
pairs in the glob's sorted order; files whose contact number the scheme
excludes are skipped before memory-mapping; each kept file contributes
one channel row per requested epoch, sliced from its buffer; the contact
identities are the numeric suffixes of the kept files. -/
def split_read (r : Reader) (files : List (Int × List Int)) :
    EEGData × List Int :=
  let kept := files.filter (fun f => include_contact r f.1)
  (r.epochs.map (fun e => kept.map (fun f => pySlice f.2 e)),
   kept.map (·.1))

/-- C9 input: a contact-form scheme covering exactly contacts 1, 2, 3. -/
def contactScheme123 : Scheme :=
  ⟨none, none, some [1, 2, 3], ["e1", "e2", "e3"]⟩

/-- C9 input: the numeric suffixes 1..10 in the lexicographic order the
glob's sort yields for unpadded names (.1 < .10 < .2 < ... < .9). -/
def lexSuffixes : List Int := [1, 10, 2, 3, 4, 5, 6, 7, 8, 9]

/-- The kind of on-disk source a partition of events points at; the
assembler picks the reader class from the filename suffix. For the
structured container the file contents are carried, since its read is
what can change the rereferencing flag. -/
inductive SourceFile where
  | ram (file : RamulatorFile)
  | split
  | numpy
  | scalp
  deriving DecidableEq

/-- The operations performed on a reader instance after construction. -/
inductive ROp where
  | read
  | reref
  deriving DecidableEq

/-- Effect of one reader operation on the reader state: only
RamulatorHDF5Reader.read assigns rereferencing_possible; the split,
numpy and scalp reads, and every rereference variant, leave the reader
state unchanged (no other method of eeg.py assigns the flag). -/
def readerStep (sf : SourceFile) (r : Reader) (op : ROp) : Reader :=
  match sf, op with
  | .ram f, .read => (ram_read r f).1
  | _, _ => r

/-- Reader state after the construct-and-read step the assembler performs
for one source file (eeg.py 678-685). -/
def readerAfterFile (scheme : Option Scheme) (epochs : List Epoch)
    (sf : SourceFile) : Reader :=
  readerStep sf (readerInit epochs scheme) .read

/-- The per-file loop of EEGReader.as_timeseries (eeg.py 636-721)
restricted to its effect on the reader variable: the variable is
overwritten on every iteration, so after the loop it holds the
last-processed file's reader (None models the NameError of a loop that
never ran, excluded upstream by the events validation). -/
def loopFinalReader (scheme : Option Scheme) (epochs : List Epoch)
    (files : List SourceFile) : Option Reader :=
  files.foldl (fun _ sf => some (readerAfterFile scheme epochs sf)) none

/-- Python dict assignment d[k] = v. -/
def attrsSet (attrs : List (String × Bool)) (k : String) (v : Bool) :
    List (String × Bool) :=
  (k, v) :: attrs.filter (fun p => p.1 != k)

/-- Python dict lookup d.get(k). -/
def attrsGet (attrs : List (String × Bool)) (k : String) : Option Bool :=
  (attrs.find? (fun p => p.1 == k)).map (·.2)

/-- The tail of EEGReader.as_timeseries (eeg.py 722-724): after the
per-file containers are concatenated — mergedAttrs stands for whatever
attribute bag that concatenation produced — the rereferencing_possible
key is assigned from the loop's final reader. -/
def assembleAttrs (scheme : Option Scheme) (epochs : List Epoch)
    (files : List SourceFile) (mergedAttrs : List (String × Bool)) :
    Option (List (String × Bool)) :=
  (loopFinalReader scheme epochs files).map
    (fun r => attrsSet mergedAttrs "rereferencing_possible"
                r.rereferencingPossible)

/- ================= Lemmas and theorems ================= -/

lemma lookupAll_eq_none (f : Int → Option Nat) (l : List Int)
    (c : Int) (hc : c ∈ l) (hf : f c = none) : lookupAll f l = none := by
  induction l with
  | nil => cases hc
  | cons a l ih =>
    rcases List.mem_cons.mp hc with h | h
    · subst h
      simp [lookupAll, hf]
    · cases ha : f a with
      | none => simp [lookupAll, ha]
      | some b => simp [lookupAll, ha, ih h]

lemma exceptMap_eq_ok {ε α β : Type} (x : Except ε α) (f : α → β) (out : β)
    (h : x.map f = .ok out) : ∃ v, x = .ok v ∧ out = f v := by
  cases x with
  | error e => exact Except.noConfusion h
  | ok v =>
    refine ⟨v, rfl, ?_⟩
    simp only [Except.map, Except.ok.injEq] at h
    exact h.symm

lemma mem_take_iff_exists {α : Type} (l : List α) (i : Nat) (x : α) :
    x ∈ l.take i ↔ ∃ j, j < i ∧ l[j]? = some x := by
  rw [List.mem_iff_getElem?]
  constructor
  · rintro ⟨j, hj⟩
    have hlt : j < i := by
      by_contra hge
      have hnone : (l.take i)[j]? = none :=
        List.getElem?_eq_none (by simp only [List.length_take]; omega)
      rw [hnone] at hj
      cases hj
    exact ⟨j, hlt, by rw [← List.getElem?_take_of_lt hlt]; exact hj⟩
  · rintro ⟨j, hlt, hj⟩
    exact ⟨j, by rw [List.getElem?_take_of_lt hlt]; exact hj⟩

lemma ramKeepMask_length (pairs : List (Int × Int)) :
    (ramKeepMask pairs).length = pairs.length := by
  simp [ramKeepMask]

lemma ramKeepMask_first_occurrence (pairs : List (Int × Int)) (i : Nat)
    (hi : i < pairs.length) :
    (ramKeepMask pairs).getD i false = true ↔
      ∀ j, j < i → ∀ (hj : j < pairs.length),
        pairs.get ⟨j, hj⟩ ≠ pairs.get ⟨i, hi⟩ ∧
        pairs.get ⟨j, hj⟩ ≠
          ((pairs.get ⟨i, hi⟩).2, (pairs.get ⟨i, hi⟩).1) := by
  have hlen : i < (ramKeepMask pairs).length := by
    rw [ramKeepMask_length]
    exact hi
  rw [List.getD_eq_getElem _ _ hlen]
  simp only [ramKeepMask, List.enum_eq_enumFrom, List.getElem_map,
    List.getElem_enumFrom, Nat.zero_add, Bool.not_eq_true',
    Bool.or_eq_false_iff, decide_eq_false_iff_not, mem_take_iff_exists,
    not_exists, not_and, List.get_eq_getElem]
  constructor
  · rintro ⟨h1, h2⟩ j hjlt hj
    constructor
    · intro heq
      exact h1 j hjlt (by rw [List.getElem?_eq_getElem hj, heq])
    · intro heq
      exact h2 j hjlt (by rw [List.getElem?_eq_getElem hj, heq])
  · intro h
    constructor
    · intro j hjlt hsome
      have hj : j < pairs.length := by
        rcases List.getElem?_eq_some_iff.mp hsome with ⟨hj, _⟩
        exact hj
      rcases h j hjlt hj with ⟨hne, _⟩
      rw [List.getElem?_eq_getElem hj] at hsome
      exact hne (by injection hsome)
    · intro j hjlt hsome
      have hj : j < pairs.length := by
        rcases List.getElem?_eq_some_iff.mp hsome with ⟨hj, _⟩
        exact hj
      rcases h j hjlt hj with ⟨_, hne⟩
      rw [List.getElem?_eq_getElem hj] at hsome
      exact hne (by injection hsome)

/-- C4: when the structured-container file carries a bipolar_info table,
read returns as contact identities the keep-mask subset of the stored
ports list, applies the same keep-mask to the channel axis of the data
for both on-disk orientations, and the keep-mask retains entry i exactly
when no strictly earlier entry records the same two contacts in either
order — so a pair recorded more than once keeps exactly its first
occurrence in file order. -/
theorem ram_read_dedup_first_occurrence (r : Reader) (file : RamulatorFile)
    (pairs : List (Int × Int)) (hbp : file.bipolarInfo = some pairs) :
    (ram_read r file).2.2 = applyMask (ramKeepMask pairs) file.ports ∧
    (file.orientRow = false →
      (ram_read r file).2.1 = r.epochs.map (fun e =>
        (applyMask (ramKeepMask pairs) file.timeseries).map
          (fun row => pySlice row e))) ∧
    (file.orientRow = true →
      (ram_read r file).2.1 = r.epochs.map (fun e =>
        ((pySlice file.timeseries e).map
          (applyMask (ramKeepMask pairs))).transpose)) ∧
    (∀ i, ∀ hi : i < pairs.length,
      ((ramKeepMask pairs).getD i false = true ↔
        ∀ j, j < i → ∀ hj : j < pairs.length,
          pairs.get ⟨j, hj⟩ ≠ pairs.get ⟨i, hi⟩ ∧
          pairs.get ⟨j, hj⟩ ≠
            ((pairs.get ⟨i, hi⟩).2, (pairs.get ⟨i, hi⟩).1))) := by
  refine ⟨?_, ?_, ?_, ?_⟩
  · simp [ram_read, hbp]
  · intro h
    simp [ram_read, hbp, h]
  · intro h
    simp [ram_read, hbp, h]
  · intro i hi
    exact ramKeepMask_first_occurrence pairs i hi

/-- Witness for the C4 theorem: on a file recording (1,2), (3,4), (2,1),
(3,4), the kept contacts are the first two ports and the reversed
duplicate at position 2 is dropped. -/
theorem ram_read_dedup_first_occurrence_witness :
    (ram_read (readerInit [((0 : Int), none)] none) dupFile).2.2 =
      [10, 20] ∧
    (ramKeepMask [(1, 2), (3, 4), (2, 1), (3, 4)]).getD 2 false = false := by
  have h := ram_read_dedup_first_occurrence
    (readerInit [((0 : Int), none)] none) dupFile
    [(1, 2), (3, 4), (2, 1), (3, 4)] rfl
  refine ⟨?_, ?_⟩
  · rw [h.1]
    decide
  · decide

lemma zipWith_eq_map_zip {α β γ : Type} (f : α → β → γ) :
    ∀ (l1 : List α) (l2 : List β),
      List.zipWith f l1 l2 = (l1.zip l2).map (fun p => f p.1 p.2)
  | [], _ => by simp
  | _ :: _, [] => by simp
  | a :: l1, b :: l2 => by
    simp only [List.zip_cons_cons, List.zipWith_cons_cons, List.map_cons,
      zipWith_eq_map_zip f l1 l2]

lemma ramValidCount_eq_zero_iff (s : Scheme) (allNums : List (Int × Int)) :
    ramValidCount s allNums = 0 ↔
    ∀ p ∈ (s.contact_1.getD []).zip (s.contact_2.getD []),
      ¬(p.1 ∈ allNums.map (·.1) ∧ p.2 ∈ allNums.map (·.2)) := by
  rw [ramValidCount, ramValidMask, zipWith_eq_map_zip, List.length_eq_zero,
    List.filter_eq_nil_iff]
  constructor
  · intro h p hp
    have := h _ (List.mem_map_of_mem _ hp)
    simpa using this
  · intro h x hx
    obtain ⟨p, hp, rfl⟩ := List.mem_map.mp hx
    simpa using h p hp

/-- C1 (amended): for the structured-container reader with the monopolar
flag False and a pair-form scheme over a nonempty recorded bipolar table,
rereference raises RereferencingNotPossibleError exactly when no scheme
row passes the per-column membership test: contact_1 occurring somewhere
in the recorded ch0 column and contact_2 somewhere in the recorded ch1
column. Zero unordered-pair intersection alone does not force the error:
the per-column test can pass on a row whose pair is recorded in neither
order, in which case the call returns without error (possibly with an
empty channel axis). -/
theorem ram_rereference_feasibility_error_iff (r : Reader)
    (file : RamulatorFile) (data : EEGData) (contacts : List Int)
    (s : Scheme) (allNums : List (Int × Int))
    (hflag : r.rereferencingPossible = false)
    (hs : r.scheme = some s)
    (hpairs : s.contact_1.isSome ∧ s.contact_2.isSome)
    (hbp : file.bipolarInfo = some allNums)
    (hne : allNums.length ≠ 0) :
    (ram_rereference r file data contacts =
        .error .rereferencingNotPossibleError) ↔
      ∀ p ∈ (s.contact_1.getD []).zip (s.contact_2.getD []),
        ¬(p.1 ∈ allNums.map (·.1) ∧ p.2 ∈ allNums.map (·.2)) := by
  rw [← ramValidCount_eq_zero_iff s allNums]
  simp only [ram_rereference, hflag, if_false, hs, schemeTypeSome, hpairs,
    and_self, if_true, hbp, Bool.false_eq_true]
  rw [if_neg hne]
  by_cases hc : ramValidCount s allNums = 0
  · simp [hc]
  · simp [hc]

/-- C1 counterexample: with the monopolar flag False, recorded bipolar
pairs (1,2) and (3,4), and a scheme requesting only the pair (1,4) —
which intersects the recording in neither contact order — the per-column
mask still marks the scheme row (1 occurs among the recorded first
contacts, 4 among the recorded second contacts), so no
RereferencingNotPossibleError is raised and the call silently returns a
zero-channel data block with one label and no warning; the claim as
stated is false at this input. -/
theorem ram_rereference_zero_intersection_counterexample :
    reader14.rereferencingPossible = false ∧
    reader14.scheme = some scheme14 ∧
    (∀ q ∈ [((1 : Int), (2 : Int)), ((3 : Int), (4 : Int))],
        ((1 : Int), (4 : Int)) ≠ q ∧ ((4 : Int), (1 : Int)) ≠ q) ∧
    ram_rereference reader14 file1234 [[[10], [20]]] [1, 2] =
      .ok ([[]], ["A"], []) := by decide

/-- Witness for the amended C1 theorem: a scheme requesting (2,1), the
reverse of the only recorded pair (1,2), fails the per-column test on
every row, so the feasibility error is raised. -/
theorem ram_rereference_feasibility_error_iff_witness :
    ram_rereference reader21 file12 [[[5]]] [1] =
      .error .rereferencingNotPossibleError := by
  have h := ram_rereference_feasibility_error_iff reader21 file12 [[[5]]] [1]
    scheme21 [(1, 2)] (by decide) (by decide) (by decide) (by decide)
    (by decide)
  exact h.mpr (by decide)

lemma aligned_filterMap_zipWith {α : Type} (f : Int → Option Nat)
    (g : Nat → Nat → α) :
    ∀ l1 l2 : List Int, l1.length = l2.length →
    (∀ p ∈ l1.zip l2, (f p.1).isSome ↔ (f p.2).isSome) →
    (l1.filterMap f).length = (l2.filterMap f).length ∧
    List.zipWith g (l1.filterMap f) (l2.filterMap f)
      = (l1.zip l2).filterMap
          (fun p => (pairIdx f p).map (fun q => g q.1 q.2)) := by
  intro l1
  induction l1 with
  | nil =>
    intro l2 hlen _
    cases l2 with
    | nil => simp
    | cons b l2 => simp at hlen
  | cons a l1 ih =>
    intro l2 hlen halign
    cases l2 with
    | nil => simp at hlen
    | cons b l2 =>
      have hlen2 : l1.length = l2.length := by simpa using hlen
      have hab : (f a).isSome ↔ (f b).isSome := halign (a, b) (by simp)
      have halign2 : ∀ p ∈ l1.zip l2, (f p.1).isSome ↔ (f p.2).isSome :=
        fun p hp => halign p (by simp [hp])
      obtain ⟨ihlen, iheq⟩ := ih l2 hlen2 halign2
      cases h1 : f a with
      | none =>
        have h2 : f b = none := by
          rw [h1] at hab
          simpa using hab
        simp [List.filterMap_cons, h1, h2, pairIdx, ihlen, iheq]
      | some i =>
        have hb : (f b).isSome := by
          rw [h1] at hab
          simpa using hab
        obtain ⟨j, h2⟩ := Option.isSome_iff_exists.mp hb
        simp [List.filterMap_cons, h1, h2, pairIdx, ihlen, iheq]

lemma mapExcept_ok {ε α β : Type} (f : α → β) (l : List α) :
    mapExcept (fun a => (Except.ok (f a) : Except ε β)) l =
      Except.ok (l.map f) := by
  induction l with
  | nil => rfl
  | cons a l ih => simp [mapExcept, ih]

/-- C2 (amended): when every scheme pair has either both contacts present
in the contact-to-index map or both absent, the pair-form rereference
returns one row per both-present pair, in scheme order, equal to the
elementwise difference data[contact_1] − data[contact_2]; pairs with both
contacts absent contribute no row, and the returned label list is the full
scheme label column, not filtered by the per-pair presence mask. (The
alignment hypothesis is forced: the code filters the contact_1 and
contact_2 columns through the map independently, so a pair with exactly
one present contact mis-aligns the two row selections.) -/
theorem pair_rereference_skips_and_full_labels (r : Reader) (data : EEGData)
    (contacts : List Int) (c1col c2col : List Int) (cc : Option (List Int))
    (labels : List String)
    (hs : r.scheme = some ⟨some c1col, some c2col, cc, labels⟩)
    (hlen : c1col.length = c2col.length)
    (halign : ∀ p ∈ c1col.zip c2col,
        (contactToIndex contacts p.1).isSome ↔
          (contactToIndex contacts p.2).isSome) :
    rereference r data contacts =
      .ok (data.map (fun ep =>
             ((c1col.zip c2col).filterMap
                 (pairIdx (contactToIndex contacts))).map
               (fun q => rowSub (ep.getD q.1 []) (ep.getD q.2 []))),
           labels, []) := by
  have hep : ∀ ep : List (List Int),
      broadcastSub
        ((c1col.filterMap (contactToIndex contacts)).map
          (fun i => ep.getD i []))
        ((c2col.filterMap (contactToIndex contacts)).map
          (fun j => ep.getD j [])) =
      Except.ok
        (((c1col.zip c2col).filterMap
            (pairIdx (contactToIndex contacts))).map
          (fun q => rowSub (ep.getD q.1 []) (ep.getD q.2 []))) := by
    intro ep
    obtain ⟨klen, keq⟩ :=
      aligned_filterMap_zipWith (contactToIndex contacts)
        (fun i j => rowSub (ep.getD i []) (ep.getD j []))
        c1col c2col hlen halign
    have hmlen :
        ((c1col.filterMap (contactToIndex contacts)).map
          (fun i => ep.getD i [])).length =
        ((c2col.filterMap (contactToIndex contacts)).map
          (fun j => ep.getD j [])).length := by
      simpa using klen
    rw [broadcastSub, if_pos hmlen, List.zipWith_map, keq,
      List.map_filterMap]
  rw [rereference, hs]
  simp only [schemeTypeSome, Option.isSome_some, and_self, if_true,
    Option.getD_some, hep, mapExcept_ok, Except.map]

/-- C2 counterexample: with recorded contacts [1, 4], both scheme pairs
(1,2) and (3,4) have an absent contact, so the claim predicts zero output
rows; the code instead pairs the independently filtered columns and
returns one row equal to data[1] − data[4], a derivation no scheme row
requested. -/
theorem pair_rereference_misaligned_counterexample :
    (∀ p ∈ [((1 : Int), (2 : Int)), (3, 4)],
        ¬((contactToIndex [1, 4] p.1).isSome ∧
          (contactToIndex [1, 4] p.2).isSome)) ∧
    pairScheme1234.contact_1 = some [1, 3] ∧
    pairScheme1234.contact_2 = some [2, 4] ∧
    rereference pairReader1234 [[[10], [20]]] [1, 4] =
      .ok ([[[-10]]], ["A", "B"], []) := by decide

/-- Witness for the amended C2 theorem: recorded contacts [1, 2] leave
pair (1,2) fully present and pair (3,4) fully absent, so exactly one row
data[1] − data[2] is produced and both labels are returned. -/
theorem pair_rereference_skips_and_full_labels_witness :
    rereference pairReader1234 [[[10], [20]]] [1, 2] =
      .ok ([[[-10]]], ["A", "B"], []) := by
  have h := pair_rereference_skips_and_full_labels pairReader1234
    [[[10], [20]]] [1, 2] [1, 3] [2, 4] none ["A", "B"]
    (by decide) (by decide) (by decide)
  rw [h]
  decide

/-- C6 counterexample: on a scheme with neither the pair columns nor the
contact column, scheme_type raises KeyError, not the SchemeFormatError the
claim names; so the claim as stated is false at this input. -/
theorem scheme_type_malformed_not_schemeformaterror :
    malformedScheme.contact_1 = none ∧
    malformedScheme.contact_2 = none ∧
    malformedScheme.contact = none ∧
    scheme_type (some malformedScheme) = .error .keyError ∧
    scheme_type (some malformedScheme) ≠ .error .schemeFormatError := by
  decide

/-- C6 (amended): for every scheme that contains neither both pair-form
columns (contact_1 and contact_2) nor the contact-form column (contact),
determining the scheme type fails with KeyError (the builtin raised at
eeg.py line 155), not with a SchemeFormatError. -/
theorem scheme_type_malformed_raises_keyerror (s : Scheme)
    (h1 : ¬(s.contact_1.isSome ∧ s.contact_2.isSome))
    (h2 : ¬ s.contact.isSome) :
    scheme_type (some s) = .error .keyError := by
  simp [scheme_type, schemeTypeSome, h1, h2, Except.map]

/-- Witness for the amended C6 theorem at the concrete malformed scheme. -/
theorem scheme_type_malformed_raises_keyerror_witness :
    scheme_type (some malformedScheme) = .error .keyError :=
  scheme_type_malformed_raises_keyerror malformedScheme (by decide) (by decide)


/-- C5 (amended): partial-data conditions are not handled uniformly:
(a) the structured-container override's bipolar-native branch, when some
but not all scheme rows pass its membership mask, emits
MissingChannelsWarning and returns the available subset without raising;
(b) the default rereference never emits a warning on any input; and
(c) the default contact-form rereference escalates an absent contact to a
KeyError instead of degrading gracefully (the pair form skips absent
contacts silently, with no warning). -/
theorem partial_data_warning_behavior :
    (∀ (r : Reader) (file : RamulatorFile) (data : EEGData)
        (contacts : List Int) (s : Scheme) (allNums : List (Int × Int)),
        r.rereferencingPossible = false →
        r.scheme = some s →
        s.contact_1.isSome ∧ s.contact_2.isSome →
        file.bipolarInfo = some allNums →
        allNums.length ≠ 0 →
        ramValidCount s allNums ≠ 0 →
        ramValidCount s allNums < (s.contact_1.getD []).length →
        ∃ out : RerefOut,
          ram_rereference r file data contacts = .ok out ∧
          out.2.2 = [.missingChannels]) ∧
    (∀ (r : Reader) (data : EEGData) (contacts : List Int)
        (out : RerefOut),
        rereference r data contacts = .ok out → out.2.2 = []) ∧
    (∀ (r : Reader) (data : EEGData) (contacts : List Int) (s : Scheme),
        r.scheme = some s →
        ¬(s.contact_1.isSome ∧ s.contact_2.isSome) →
        s.contact.isSome →
        (∃ c ∈ s.contact.getD [], contactToIndex contacts c = none) →
        rereference r data contacts = .error .keyError) := by
  refine ⟨?_, ?_, ?_⟩
  · intro r file data contacts s allNums hflag hs hpairs hbp hne h0 hlt
    simp only [ram_rereference, hflag, Bool.false_eq_true, if_false, hs,
      schemeTypeSome, hpairs, and_self, if_true, hbp]
    rw [if_neg hne, if_neg h0, if_pos hlt]
    exact ⟨_, rfl, rfl⟩
  · intro r data contacts out h
    unfold rereference at h
    split at h
    · exact Except.noConfusion h
    · split at h
      · exact Except.noConfusion h
      · obtain ⟨v, _, rfl⟩ := exceptMap_eq_ok _ _ _ h
        rfl
      · split at h
        · exact Except.noConfusion h
        · simp only [Except.ok.injEq] at h
          rw [← h]
  · intro r data contacts s hs h1 h2 hmiss
    obtain ⟨c, hc, hnone⟩ := hmiss
    unfold rereference
    rw [hs]
    simp only [schemeTypeSome, h1, if_false]
    rw [if_pos h2]
    rw [lookupAll_eq_none (contactToIndex contacts) _ c hc hnone]

/-- C5 counterexample: requesting contacts 1 and 2 with only contact 1
recorded is a partial-data condition (some but not all requested channels
absent), yet the default rereference raises KeyError — a fatal error with
no warning — contradicting the claim that such conditions never escalate. -/
theorem default_rereference_partial_data_counterexample :
    (contactToIndex [1] 1).isSome ∧
    contactToIndex [1] 2 = none ∧
    rereference (readerInit [] (some contactScheme12)) [[[10]]] [1] =
      .error .keyError := by decide

/-- Witness for the amended C5 theorem: (a) a partially matching scheme
over file1234 warns and returns the available subset; (b) a successful
default pair-form call returns no warnings; (c) the contact form with an
absent contact raises KeyError. -/
theorem partial_data_warning_behavior_witness :
    (∃ out : RerefOut,
        ram_rereference readerPart file1234 [[[10], [20]]] [1, 2] =
          .ok out ∧ out.2.2 = [.missingChannels]) ∧
    (([[[-10]]], ["A", "B"], ([] : List Warn)) : RerefOut).2.2 = [] ∧
    rereference (readerInit [] (some contactScheme12)) [[[10]]] [1] =
      .error .keyError := by
  refine ⟨?_, ?_, ?_⟩
  · exact partial_data_warning_behavior.1 readerPart file1234
      [[[10], [20]]] [1, 2] schemePart [(1, 2), (3, 4)] (by decide)
      (by decide) (by decide) (by decide) (by decide) (by decide) (by decide)
  · exact partial_data_warning_behavior.2.1 pairReader1234
      [[[10], [20]]] [1, 2] ([[[-10]]], ["A", "B"], []) (by decide)
  · exact partial_data_warning_behavior.2.2
      (readerInit [] (some contactScheme12)) [[[10]]] [1] contactScheme12
      (by decide) (by decide) (by decide) ⟨2, by decide, by decide⟩


/-- C3 (amended): for every request with rel_start > rel_stop, the
as_timeseries epoch-determination step fails with ValueError when both
rel_start differs from 0 and rel_stop differs from -1, fails with
InvalidWindowError from the epoch converter when exactly one of
rel_start = 0, rel_stop = -1 holds, and for the sentinel (0, -1) yields
exactly one epoch (0, null) regardless of the event count. -/
theorem epoch_window_validation (evOffsets : List Int) (nEventsTotal : Nat)
    (relStart relStop : Int) (sampleRate : ℚ)
    (h : relStart > relStop) :
    computeEpochs evOffsets nEventsTotal relStart relStop sampleRate =
      (if relStart = 0 ∧ relStop = -1 then .ok [((0 : Int), none)]
       else if relStart ≠ 0 ∧ relStop ≠ -1 then .error .valueError
       else .error .invalidWindowError) := by
  by_cases h1 : relStart = 0 <;> by_cases h2 : relStop = -1 <;>
    by_cases h3 : nEventsTotal = 1 <;>
      simp [computeEpochs, events_to_epochs, h1, h2, h3, h] <;> omega

/-- C3 counterexample: the request rel_start=5, rel_stop=3 has
rel_start > rel_stop and is not the sentinel, yet it fails with
ValueError (the as_timeseries sanity check), not with the
InvalidWindowError named by the claim. -/
theorem epoch_window_valueerror_counterexample :
    computeEpochs [0] 1 5 3 1000 = .error .valueError ∧
    computeEpochs [0] 1 5 3 1000 ≠ .error .invalidWindowError ∧
    computeEpochs [0, 100, 200] 3 0 (-1) 1000 = .ok [((0 : Int), none)] := by
  refine ⟨by decide, by decide, by decide⟩

/-- Witness for the amended C3 theorem at rel_start=5 > rel_stop=3 (the
ValueError case) and at rel_start=0 > rel_stop=-5 (the converter's
InvalidWindowError case). -/
theorem epoch_window_validation_witness :
    computeEpochs [0] 1 5 3 1000 = .error .valueError ∧
    computeEpochs [0] 1 0 (-5) 1000 = .error .invalidWindowError := by
  constructor
  · have h := epoch_window_validation [0] 1 5 3 1000 (by decide)
    rw [h]
    decide
  · have h := epoch_window_validation [0] 1 0 (-5) 1000 (by decide)
    rw [h]
    decide


lemma headD_append_of_ne_nil {α : Type} (l1 l2 : List α) (d : α)
    (h : l1 ≠ []) : (l1 ++ l2).headD d = l1.headD d := by
  cases l1 with
  | nil => exact absurd rfl h
  | cons a l => rfl

/-- C7: concatenating per-file results along the epoch axis requires an
identical sample rate, an identical per-epoch sample count and an
identical channel list across all constituents, failing with ValueError
otherwise; on compatible inputs the combined epoch count is the sum of
the inputs' epoch counts and the per-epoch metadata is the concatenation
of the inputs' metadata in input order. -/
theorem concatenate_events_spec (series : List TS) (s0 : TS)
    (rest : List TS) (hser : series = s0 :: rest)
    (hwf : ∀ s ∈ series, TS.wf s)
    (hne : ∀ s ∈ series, s.data ≠ []) :
    ((¬ ∀ s ∈ series, s.samplerate = s0.samplerate ∧
        lastDim s.data = lastDim s0.data ∧ s.channels = s0.channels) →
      concatenateEvents series = .error .valueError) ∧
    ((∀ s ∈ series, s.samplerate = s0.samplerate ∧
        lastDim s.data = lastDim s0.data ∧ s.channels = s0.channels) →
      concatenateEvents series =
        .ok ⟨(series.map (·.data)).flatten, s0.samplerate,
             (series.map (·.epochs)).flatten, s0.channels⟩ ∧
      ((series.map (·.data)).flatten).length =
        (series.map (fun s => s.data.length)).sum) := by
  subst hser
  constructor
  · intro hno
    simp only [concatenateEvents]
    split_ifs with hA hB hC
    · exfalso
      apply hno
      intro s hsmem
      simp only [List.all_eq_true, decide_eq_true_eq] at hA hB hC
      exact ⟨hA s hsmem, hB s hsmem, hC s hsmem⟩
    · rfl
    · rfl
    · rfl
  · intro hyes
    have hA : ((s0 :: rest).all
        (fun s => decide (s.samplerate = s0.samplerate))) = true := by
      simp only [List.all_eq_true, decide_eq_true_eq]
      exact fun s hs => (hyes s hs).1
    have hB : ((s0 :: rest).all
        (fun s => decide (lastDim s.data = lastDim s0.data))) = true := by
      simp only [List.all_eq_true, decide_eq_true_eq]
      exact fun s hs => (hyes s hs).2.1
    have hC : ((s0 :: rest).all
        (fun s => decide (s.channels = s0.channels))) = true := by
      simp only [List.all_eq_true, decide_eq_true_eq]
      exact fun s hs => (hyes s hs).2.2
    have hlen : (((s0 :: rest).map (·.epochs)).flatten).length =
        (((s0 :: rest).map (·.data)).flatten).length := by
      simp only [List.length_flatten, List.map_map]
      congr 1
      apply List.map_congr_left
      intro s hs
      exact (hwf s hs).1
    have hhead : shape1 (((s0 :: rest).map (·.data)).flatten) =
        shape1 s0.data := by
      simp only [List.map_cons, List.flatten_cons, shape1]
      rw [headD_append_of_ne_nil _ _ _ (hne s0 (by simp))]
    have hch : s0.channels.length =
        shape1 (((s0 :: rest).map (·.data)).flatten) := by
      rw [hhead]
      exact (hwf s0 (by simp)).2.1
    simp only [concatenateEvents, hA, hB, hC, not_true, if_false]
    constructor
    · simp only [TS.make, Option.getD_some, Option.isSome_some, true_and]
      rw [if_neg (by rw [hlen]; simp), if_neg (by rw [← hch]; simp)]
    · simp only [List.length_flatten, List.map_map]
      rfl

/-- Witness for the C7 theorem: two compatible blocks of 2 and 1 epochs
concatenate into a 3-epoch block carrying the stacked epoch metadata. -/
theorem concatenate_events_spec_witness :
    concatenateEvents [tsA, tsB] =
      .ok ⟨[[[1, 2]], [[3, 4]], [[5, 6]]], 1000,
           [(0, 2), (2, 4), (4, 6)], ["c"]⟩ ∧
    (([tsA, tsB].map (·.data)).flatten).length =
      ([tsA, tsB].map (fun s => s.data.length)).sum := by
  have h := (concatenate_events_spec [tsA, tsB] tsA [tsB] rfl
    (by decide) (by decide)).2 (by decide)
  refine ⟨?_, h.2⟩
  rw [h.1]
  decide


lemma map_fst_filter_fst {α β : Type} (p : α → Bool) :
    ∀ l : List (α × β),
      (l.filter (fun f => p f.1)).map (fun x => x.1) =
        (l.map (fun x => x.1)).filter p := by
  intro l
  induction l with
  | nil => rfl
  | cons a l ih => by_cases hp : p a.1 <;> simp [List.filter_cons, hp, ih]

/-- C9: the split reader returns as identities exactly the file suffixes
accepted by the scheme's contact filter, in discovery order; the identity
list length equals the channel axis of every returned epoch, with one
epoch row-set per requested epoch; and for files suffixed 1..10 with a
scheme covering exactly contacts 1, 2, 3 the identities are [1, 2, 3]
(exactly 3 channels). -/
theorem split_read_scheme_filter (scheme : Option Scheme)
    (epochs : List Epoch) (files : List (Int × List Int)) :
    ((split_read (readerInit epochs scheme) files).2 =
      (files.map (·.1)).filter
        (fun c => include_contact (readerInit epochs scheme) c)) ∧
    (∀ ep ∈ (split_read (readerInit epochs scheme) files).1,
      ep.length = (split_read (readerInit epochs scheme) files).2.length) ∧
    (∀ c ∈ (split_read (readerInit epochs scheme) files).2,
      include_contact (readerInit epochs scheme) c = true) ∧
    ((split_read (readerInit epochs scheme) files).1.length =
      epochs.length) ∧
    (∀ contents : List (List Int), contents.length = 10 →
      (split_read (readerInit epochs (some contactScheme123))
        (lexSuffixes.zip contents)).2 = [1, 2, 3]) := by
  refine ⟨?_, ?_, ?_, ?_, ?_⟩
  · simp only [split_read]
    exact map_fst_filter_fst _ files
  · intro ep hep
    simp only [split_read, List.mem_map] at hep
    obtain ⟨e, _, rfl⟩ := hep
    simp [split_read]
  · intro c hc
    simp only [split_read, List.mem_map] at hc
    obtain ⟨f, hf, rfl⟩ := hc
    exact (List.mem_filter.mp hf).2
  · simp [split_read, readerInit]
  · intro contents hlen
    have hmap : (lexSuffixes.zip contents).map (fun x => x.1) =
        lexSuffixes :=
      List.map_fst_zip _ _ (by rw [hlen]; rfl)
    have h1 : (split_read (readerInit epochs (some contactScheme123))
        (lexSuffixes.zip contents)).2 =
        lexSuffixes.filter
          (fun c => include_contact
            (readerInit epochs (some contactScheme123)) c) := by
      simp only [split_read]
      rw [map_fst_filter_fst, hmap]
    rw [h1]
    have hfun : (fun c => include_contact
        (readerInit epochs (some contactScheme123)) c) =
        (fun c => decide (c ∈ ([1, 2, 3] : List Int))) := rfl
    rw [hfun]
    decide

/-- Witness for the C9 theorem at a concrete file list. -/
theorem split_read_scheme_filter_witness :
    (split_read (readerInit [((0 : Int), some 2)] (some contactScheme123))
        (lexSuffixes.zip [[1, 2], [3, 4], [5, 6], [7, 8], [9, 10], [11, 12],
          [13, 14], [15, 16], [17, 18], [19, 20]])).2 = [1, 2, 3] := by
  exact (split_read_scheme_filter (some contactScheme123)
      [((0 : Int), some 2)]
      (lexSuffixes.zip [[1, 2], [3, 4], [5, 6], [7, 8], [9, 10], [11, 12],
        [13, 14], [15, 16], [17, 18], [19, 20]])).2.2.2.2
    [[1, 2], [3, 4], [5, 6], [7, 8], [9, 10], [11, 12],
     [13, 14], [15, 16], [17, 18], [19, 20]] rfl

lemma loopFoldl_eq_last (scheme : Option Scheme) (epochs : List Epoch) :
    ∀ (files : List SourceFile) (h : files ≠ []) (init : Option Reader),
      files.foldl
          (fun _ sf => some (readerAfterFile scheme epochs sf)) init =
        some (readerAfterFile scheme epochs (files.getLast h))
  | [], h, _ => absurd rfl h
  | [sf], _, _ => rfl
  | a :: b :: l, _, init => by
    rw [List.foldl_cons,
      loopFoldl_eq_last scheme epochs (b :: l) (by simp)
        (some (readerAfterFile scheme epochs a))]
    simp [List.getLast_cons]

/-- C8: when a batch spans several source files, the assembled result's
rereferencing_possible attribute equals the flag of the last-processed
file's reader, whatever flags the earlier files' readers carried and
whatever attribute bag the concatenation produced. -/
theorem rereferencing_flag_last_wins (scheme : Option Scheme)
    (epochs : List Epoch) (files : List SourceFile)
    (mergedAttrs : List (String × Bool)) (h : files ≠ []) :
    ∃ a, assembleAttrs scheme epochs files mergedAttrs = some a ∧
      attrsGet a "rereferencing_possible" =
        some ((readerAfterFile scheme epochs
          (files.getLast h)).rereferencingPossible) := by
  rw [assembleAttrs, loopFinalReader,
    loopFoldl_eq_last scheme epochs files h none]
  exact ⟨_, rfl, by simp [attrsGet, attrsSet, List.find?]⟩

/-- Witness for the C8 theorem: a non-rerefable structured-container file
followed by a split file yields the flag of the split file's reader
(True), the earlier False being overwritten. -/
theorem rereferencing_flag_last_wins_witness :
    ∃ a, assembleAttrs none [] [.ram file1234, .split] [] = some a ∧
      attrsGet a "rereferencing_possible" = some true := by
  obtain ⟨a, h1, h2⟩ := rereferencing_flag_last_wins none []
    [.ram file1234, .split] [] (by simp)
  refine ⟨a, h1, ?_⟩
  rw [h2]
  rfl

/-- C10: every reader starts with rereferencing_possible = True; for the
split, numpy and scalp variants the flag is still True after any sequence
of read and rereference operations; and for the structured-container
variant the flag can only end up False when the file stores the
monopolar_possible flag with a falsy value. -/
theorem rereferencing_flag_invariant :
    (∀ (epochs : List Epoch) (scheme : Option Scheme),
      (readerInit epochs scheme).rereferencingPossible = true) ∧
    (∀ sf : SourceFile, (∀ f, sf ≠ .ram f) →
      ∀ (epochs : List Epoch) (scheme : Option Scheme) (ops : List ROp),
        (ops.foldl (readerStep sf)
          (readerInit epochs scheme)).rereferencingPossible = true) ∧
    (∀ (f : RamulatorFile) (epochs : List Epoch) (scheme : Option Scheme)
        (ops : List ROp),
      (ops.foldl (readerStep (.ram f))
          (readerInit epochs scheme)).rereferencingPossible = false →
      f.monopolarPossible = some false) := by
  refine ⟨fun _ _ => rfl, ?_, ?_⟩
  · intro sf hsf epochs scheme ops
    have hstep : ∀ (r : Reader) (op : ROp), readerStep sf r op = r := by
      intro r op
      cases sf with
      | ram f => exact absurd rfl (hsf f)
      | split => cases op <;> rfl
      | numpy => cases op <;> rfl
      | scalp => cases op <;> rfl
    have hfold : ∀ (ops2 : List ROp) (r : Reader),
        ops2.foldl (readerStep sf) r = r := by
      intro ops2
      induction ops2 with
      | nil => intro r; rfl
      | cons op ops2 ih =>
        intro r
        rw [List.foldl_cons, hstep]
        exact ih r
    rw [hfold]
    rfl
  · intro f epochs scheme ops
    have hstep : ∀ (r : Reader) (op : ROp),
        (readerStep (.ram f) r op).rereferencingPossible = false →
        r.rereferencingPossible = false ∨
          f.monopolarPossible = some false := by
      intro r op h
      cases op with
      | reref => exact Or.inl h
      | read =>
        simp only [readerStep, ram_read] at h
        cases hm : f.monopolarPossible with
        | none =>
          rw [hm] at h
          exact Or.inl h
        | some b =>
          rw [hm] at h
          cases b with
          | false => exact Or.inr rfl
          | true => exact absurd h (by simp)
    have hmain : ∀ (ops2 : List ROp) (r : Reader),
        (ops2.foldl (readerStep (.ram f)) r).rereferencingPossible = false →
        r.rereferencingPossible = false ∨
          f.monopolarPossible = some false := by
      intro ops2
      induction ops2 with
      | nil => exact fun r h => Or.inl h
      | cons op ops2 ih =>
        intro r h
        rw [List.foldl_cons] at h
        rcases ih (readerStep (.ram f) r op) h with h2 | h2
        · exact hstep r op h2
        · exact Or.inr h2
    intro h
    rcases hmain ops (readerInit epochs scheme) h with h2 | h2
    · simp [readerInit] at h2
    · exact h2

/-- Witness for the C10 theorem: the constructor flag, a read/rereference
sequence on a split reader, and a read of a file whose stored flag is
falsy. -/
theorem rereferencing_flag_invariant_witness :
    (readerInit [] none).rereferencingPossible = true ∧
    (([ROp.read, ROp.reref].foldl (readerStep .split)
        (readerInit [] none)).rereferencingPossible = true) ∧
    file1234.monopolarPossible = some false := by
  refine ⟨rereferencing_flag_invariant.1 [] none, ?_, ?_⟩
  · exact rereferencing_flag_invariant.2.1 .split
      (fun f h => SourceFile.noConfusion h) [] none [ROp.read, ROp.reref]
  · exact rereferencing_flag_invariant.2.2 file1234 [] none [ROp.read]
      (by decide)

end CMLReaders
